import Mathlib

/-!
Shallow embedding of the persistence layer (`class Database`) of
`src/lib6.py`, a SQLite-backed library management program, together with
proofs about its operations.

Modelling conventions:
* Each SQLite table is a Lean `List` of row structures; `AUTOINCREMENT`
  primary keys are modelled by per-table `next…Id` counters carried in the
  `Store`.
* SQL `NULL`-able columns are `Option`; `INTEGER` columns are `Int` or `Nat`.
* Python methods returning `(True, x) / (False, msg)` are modelled with the
  `DbResult` type (or `Except String Nat` for `add_user`, whose success
  payload is `lastrowid`); every operation also returns the resulting store,
  which equals the input store when the source performs no write.
* `datetime.date.today()` and the computed due date are ambient inputs of the
  source; they are passed as explicit string parameters.
* SQLite's default `LIKE` (ASCII-case-insensitive, with `%`/`_` wildcards)
  and its BINARY text collation (used by `ORDER BY` on the ISO date strings)
  are embedded as the executable functions `likeMatch` and `strLe`.
* SQLite leaves the relative order of `ORDER BY` ties unspecified; the
  embedding fixes a stable insertion sort, which realises one of the
  permitted orders.
-/

namespace Lib6

/-- Row of the `users` table of `src/lib6.py`. -/
structure UserRow where
  id : Nat
  username : String
  password : String
  role : String
deriving Repr, DecidableEq

/-- Row of the `books` table of `src/lib6.py`. -/
structure BookRow where
  id : Nat
  title : String
  author : String
  genre : String
  available_count : Int
deriving Repr, DecidableEq

/-- Row of the `members` table of `src/lib6.py`. -/
structure MemberRow where
  id : Nat
  name : String
  email : String
  password : String
  membership_type : Option String
  membership_expiry : Option String
deriving Repr, DecidableEq

/-- Row of the `transactions` table of `src/lib6.py`. -/
structure TransactionRow where
  id : Nat
  user_id : Nat
  book_id : Nat
  issue_date : String
  due_date : String
  return_date : Option String
  returned : Nat
deriving Repr, DecidableEq

/-- The whole SQLite database of `src/lib6.py`: the four tables plus the
`AUTOINCREMENT` counters of their primary keys. -/
structure Store where
  users : List UserRow
  books : List BookRow
  members : List MemberRow
  transactions : List TransactionRow
  nextUserId : Nat
  nextBookId : Nat
  nextMemberId : Nat
  nextTxId : Nat
deriving Repr, DecidableEq

/-- Result of a mutating `Database` method of `src/lib6.py`:
`ok` is Python's `(True, None)`, `err msg` is `(False, msg)`, and `raised`
is an uncaught `sqlite3.IntegrityError` escaping the method (possible only
in `update_member`, whose second `users` update sits outside any `try`). -/
inductive DbResult where
  | ok : DbResult
  | err : String → DbResult
  | raised : DbResult
deriving Repr, DecidableEq

/-- SQLite default `LIKE` pattern matching over characters: `%` matches any
(possibly empty) run, `_` matches exactly one character, and ordinary
characters compare ASCII-case-insensitively (`Char.toLower` folds exactly
the ASCII range, as SQLite's default `LIKE` does). -/
def likeMatch : List Char → List Char → Bool
  | [], t => t.isEmpty
  | p :: ps, t =>
    if p = '%' then
      (List.range (t.length + 1)).any (fun n => likeMatch ps (t.drop n))
    else
      match t with
      | [] => false
      | c :: ts =>
        if p = '_' then likeMatch ps ts
        else (p.toLower == c.toLower) && likeMatch ps ts

/-- SQL `text LIKE pattern` with SQLite's default (case-insensitive) semantics. -/
def sqlLike (pattern text : String) : Bool :=
  likeMatch pattern.data text.data

/-- SQLite BINARY collation on character lists (codepoint-wise lexicographic
order; on the ASCII ISO date strings stored by the program this coincides
with byte order). -/
def charsLe : List Char → List Char → Bool
  | [], _ => true
  | _ :: _, [] => false
  | a :: as, b :: bs =>
    if a.toNat < b.toNat then true
    else if b.toNat < a.toNat then false
    else charsLe as bs

/-- SQLite BINARY collation on `TEXT` values, as used by
`ORDER BY t.issue_date DESC`. -/
def strLe (a b : String) : Bool :=
  charsLe a.data b.data

/-- The joined row shape produced by `list_transactions` in `src/lib6.py`
(`SELECT t.*, u.username AS username, b.title AS book_title …`). -/
structure TransactionView where
  id : Nat
  user_id : Nat
  book_id : Nat
  issue_date : String
  due_date : String
  return_date : Option String
  returned : Nat
  username : String
  book_title : String
deriving Repr, DecidableEq

/-- Insert a view into a list kept in descending `issue_date` order. -/
def insertByDateDesc (v : TransactionView) : List TransactionView → List TransactionView
  | [] => [v]
  | w :: ws =>
    if strLe w.issue_date v.issue_date then v :: w :: ws
    else w :: insertByDateDesc v ws

/-- Sort views by `issue_date` descending (the embedding of
`ORDER BY t.issue_date DESC` under the BINARY collation). -/
def sortByDateDesc : List TransactionView → List TransactionView
  | [] => []
  | v :: vs => insertByDateDesc v (sortByDateDesc vs)

/-- `Database.get_user_by_username` of `src/lib6.py`. -/
def get_user_by_username (st : Store) (username : String) : Option UserRow :=
  st.users.find? (fun u => u.username == username)

/-- `Database.authenticate` of `src/lib6.py`: exact username/password match. -/
def authenticate (st : Store) (username password : String) : Option UserRow :=
  st.users.find? (fun u => u.username == username && u.password == password)

/-- Condition under which the `INSERT INTO users` of `Database.add_user`
raises `sqlite3.IntegrityError`: the `UNIQUE` constraint on `username` or
the `CHECK(role IN ('admin','user'))` constraint. -/
def userInsertViolation (st : Store) (username role : String) : Bool :=
  st.users.any (fun u => u.username == username) ||
    !(role == "admin" || role == "user")

/-- `Database.add_user` of `src/lib6.py`; `.ok` carries `cur.lastrowid`. -/
def add_user (st : Store) (username password role : String) :
    Except String Nat × Store :=
  if userInsertViolation st username role then
    (Except.error "Username already exists", st)
  else
    (Except.ok st.nextUserId,
      { st with
        users := st.users ++ [⟨st.nextUserId, username, password, role⟩]
        nextUserId := st.nextUserId + 1 })

/-- `Database.add_book` of `src/lib6.py`; returns `cur.lastrowid`. -/
def add_book (st : Store) (title author genre : String) (available : Int) :
    Nat × Store :=
  (st.nextBookId,
    { st with
      books := st.books ++ [⟨st.nextBookId, title, author, genre, available⟩]
      nextBookId := st.nextBookId + 1 })

/-- `Database.update_book` of `src/lib6.py`. -/
def update_book (st : Store) (book_id : Nat)
    (title author genre : String) (available : Int) : Store :=
  { st with
    books := st.books.map (fun b =>
      if b.id == book_id then
        { b with title := title, author := author, genre := genre,
                 available_count := available }
      else b) }

/-- `Database.delete_book` of `src/lib6.py`: refuses while some
`returned=0` transaction references the book. -/
def delete_book (st : Store) (book_id : Nat) : DbResult × Store :=
  if st.transactions.any (fun t => t.book_id == book_id && t.returned == 0) then
    (DbResult.err "Cannot delete book with active issues", st)
  else
    (DbResult.ok, { st with books := st.books.filter (fun b => !(b.id == book_id)) })

/-- `Database.list_books` of `src/lib6.py`. Python's `if search:` treats
both `None` and the empty string as absent; otherwise the three columns are
matched against `LIKE '%' + search + '%'`. -/
def list_books (st : Store) (search : Option String) : List BookRow :=
  match search with
  | some s =>
    if s.isEmpty then st.books
    else
      let like := "%" ++ s ++ "%"
      st.books.filter (fun b =>
        sqlLike like b.title || sqlLike like b.author || sqlLike like b.genre)
  | none => st.books

/-- `Database.get_book` of `src/lib6.py`. -/
def get_book (st : Store) (book_id : Nat) : Option BookRow :=
  st.books.find? (fun b => b.id == book_id)

/-- Condition under which the `INSERT INTO members` of `Database.add_member`
raises `sqlite3.IntegrityError`: the `UNIQUE` constraint on `email` or the
`CHECK` constraint on `membership_type`. -/
def memberInsertViolation (st : Store) (email : String)
    (membership_type : Option String) : Bool :=
  st.members.any (fun m => m.email == email) ||
    (match membership_type with
     | none => false
     | some t => !(t == "regular" || t == "premium" || t == "student"))

/-- `Database.add_member` of `src/lib6.py`: inserts and commits the member
row, then calls `add_user(email, password, role="user")` discarding its
result, and returns `(True, None)` regardless of that second step. -/
def add_member (st : Store) (name email password : String)
    (membership_type expiry : Option String) : DbResult × Store :=
  if memberInsertViolation st email membership_type then
    (DbResult.err "Member email already exists", st)
  else
    let st1 : Store :=
      { st with
        members := st.members ++
          [⟨st.nextMemberId, name, email, password, membership_type, expiry⟩]
        nextMemberId := st.nextMemberId + 1 }
    (DbResult.ok, (add_user st1 email password "user").2)

/-- Condition under which the `UPDATE members` of `Database.update_member`
raises `sqlite3.IntegrityError` (caught there): the updated row would
duplicate another member's `email`, or the new `membership_type` fails its
`CHECK` constraint. -/
def memberUpdateViolation (st : Store) (member_id : Nat) (email : String)
    (membership_type : Option String) : Bool :=
  st.members.any (fun m => m.id == member_id) &&
    (st.members.any (fun m => !(m.id == member_id) && m.email == email) ||
      (match membership_type with
       | none => false
       | some t => !(t == "regular" || t == "premium" || t == "student")))

/-- `Database.update_member` of `src/lib6.py`. The member row is updated and
committed first; then the mirrored `users` row is synced: when the old email
is non-null, non-empty (Python truthiness of `old_email`) and different from
the new one, `UPDATE users SET username=?, password=? WHERE username=old` runs
outside any `try` block, so a `UNIQUE(username)` violation — some user row
already carries the new email as username while a row matches the old one —
escapes as an uncaught exception (`DbResult.raised`), leaving the member row
committed but the users table unchanged. Otherwise only the password of the
user row named by the (new) email is resynced. -/
def update_member (st : Store) (member_id : Nat) (name email password : String)
    (membership_type expiry : Option String) : DbResult × Store :=
  let old_email : Option String :=
    (st.members.find? (fun m => m.id == member_id)).map (fun m => m.email)
  if memberUpdateViolation st member_id email membership_type then
    (DbResult.err "Email already used by another member", st)
  else
    let st1 : Store :=
      { st with
        members := st.members.map (fun m =>
          if m.id == member_id then
            { m with name := name, email := email, password := password,
                     membership_type := membership_type,
                     membership_expiry := expiry }
          else m) }
    match old_email with
    | some oe =>
      if oe ≠ "" ∧ oe ≠ email then
        if st1.users.any (fun u => u.username == oe) &&
            st1.users.any (fun u => u.username == email) then
          (DbResult.raised, st1)
        else
          (DbResult.ok,
            { st1 with
              users := st1.users.map (fun u =>
                if u.username == oe then
                  { u with username := email, password := password }
                else u) })
      else
        (DbResult.ok,
          { st1 with
            users := st1.users.map (fun u =>
              if u.username == email then { u with password := password }
              else u) })
    | none =>
      (DbResult.ok,
        { st1 with
          users := st1.users.map (fun u =>
            if u.username == email then { u with password := password }
            else u) })

/-- `Database.delete_member` of `src/lib6.py`. The guard resolves
`user_id = (SELECT id FROM users WHERE username = (SELECT email FROM members
WHERE id=?))`; a missing member or user makes the scalar subquery `NULL`,
which matches no transaction. On the delete path the mirrored user row is
removed only when the member exists and its email is truthy (non-empty). -/
def delete_member (st : Store) (member_id : Nat) : DbResult × Store :=
  let uid : Option Nat :=
    (st.members.find? (fun m => m.id == member_id)).bind (fun m =>
      (st.users.find? (fun u => u.username == m.email)).map (fun u => u.id))
  let active : Bool :=
    match uid with
    | some i => st.transactions.any (fun t => t.user_id == i && t.returned == 0)
    | none => false
  if active then
    (DbResult.err "Member has active issued books", st)
  else
    let st1 : Store :=
      match st.members.find? (fun m => m.id == member_id) with
      | some m =>
        if m.email ≠ "" then
          { st with users := st.users.filter (fun u => !(u.username == m.email)) }
        else st
      | none => st
    (DbResult.ok,
      { st1 with members := st1.members.filter (fun m => !(m.id == member_id)) })

/-- `Database.list_members` of `src/lib6.py`. -/
def list_members (st : Store) : List MemberRow :=
  st.members

/-- `Database.get_member` of `src/lib6.py`. -/
def get_member (st : Store) (member_id : Nat) : Option MemberRow :=
  st.members.find? (fun m => m.id == member_id)

/-- `Database.issue_book` of `src/lib6.py`. The `issue_date` and `due_date`
parameters stand for `date.today()` and `date.today() + timedelta(days)`
computed by the source. -/
def issue_book (st : Store) (username : String) (book_id : Nat)
    (issue_date due_date : String) : DbResult × Store :=
  match get_user_by_username st username with
  | none => (DbResult.err "User not found", st)
  | some user =>
    match st.books.find? (fun b => b.id == book_id) with
    | none => (DbResult.err "Book not found", st)
    | some b =>
      if b.available_count ≤ 0 then
        (DbResult.err "No copies available", st)
      else
        (DbResult.ok,
          { st with
            transactions := st.transactions ++
              [⟨st.nextTxId, user.id, book_id, issue_date, due_date, none, 0⟩]
            nextTxId := st.nextTxId + 1
            books := st.books.map (fun bb =>
              if bb.id == book_id then
                { bb with available_count := bb.available_count - 1 }
              else bb) })

/-- `Database.return_book` of `src/lib6.py`. The `return_date` parameter
stands for `date.today()`. Python's `if tx["returned"]:` is integer
truthiness, i.e. `returned ≠ 0`. -/
def return_book (st : Store) (trans_id : Nat) (return_date : String) :
    DbResult × Store :=
  match st.transactions.find? (fun t => t.id == trans_id) with
  | none => (DbResult.err "Transaction not found", st)
  | some tx =>
    if tx.returned ≠ 0 then
      (DbResult.err "Already returned", st)
    else
      (DbResult.ok,
        { st with
          transactions := st.transactions.map (fun t =>
            if t.id == trans_id then
              { t with return_date := some return_date, returned := 1 }
            else t)
          books := st.books.map (fun b =>
            if b.id == tx.book_id then
              { b with available_count := b.available_count + 1 }
            else b) })

/-- The `JOIN users … JOIN books …` of `Database.list_transactions` applied
to one transaction row: produces a view only when both foreign keys resolve
(an inner join drops dangling rows). -/
def joinRow (st : Store) (t : TransactionRow) : Option TransactionView :=
  (st.users.find? (fun u => u.id == t.user_id)).bind (fun u =>
    (st.books.find? (fun b => b.id == t.book_id)).map (fun b =>
      ⟨t.id, t.user_id, t.book_id, t.issue_date, t.due_date, t.return_date,
        t.returned, u.username, b.title⟩))

/-- All joined transaction views, in base-table order. -/
def joinAll (st : Store) : List TransactionView :=
  st.transactions.filterMap (joinRow st)

/-- `Database.list_transactions` of `src/lib6.py`. Python's
`if for_username:` treats `None` and the empty string as absent, returning
every joined row; otherwise the join is filtered on `u.username = ?`.
Both branches sort by `issue_date` descending. -/
def list_transactions (st : Store) (for_username : Option String) :
    List TransactionView :=
  let rows : List TransactionView :=
    match for_username with
    | some x =>
      if x.isEmpty then joinAll st
      else (joinAll st).filter (fun v => v.username == x)
    | none => joinAll st
  sortByDateDesc rows

/-- `Database.ensure_admin` of `src/lib6.py`: inserts
`("admin","admin","admin")` when no `role='admin'` row exists. -/
def ensure_admin (st : Store) : Store :=
  if st.users.any (fun u => u.role == "admin") then st
  else
    { st with
      users := st.users ++ [⟨st.nextUserId, "admin", "admin", "admin"⟩]
      nextUserId := st.nextUserId + 1 }

/-- The store right after `CREATE TABLE` on a database file that did not
exist: four empty tables, `AUTOINCREMENT` counters at 1. -/
def emptyStore : Store :=
  ⟨[], [], [], [], 1, 1, 1, 1⟩

/-- `Database.__init__` of `src/lib6.py` on a path with no existing store
file: `create_tables` yields the empty tables, `migrate_schema` is a no-op on
the fresh schema (both columns it checks for exist), and `new_db` holds, so
`ensure_admin` runs. -/
def initFreshDatabase : Store :=
  ensure_admin emptyStore

/-! ### Spec-side search predicates for claim C5

`charsStartsWith`/`charsSub` are plain (case-sensitive) prefix/substring tests on
character lists; `csSub` is the claim's own predicate ("searchTerm is a
case-sensitive substring"), written from the spec's words for comparison with
the source's `LIKE`-based filter, and `ciSub` is its ASCII-case-insensitive
variant. -/

/-- Plain prefix test on character lists. -/
def charsStartsWith : List Char → List Char → Bool
  | [], _ => true
  | _ :: _, [] => false
  | a :: as, b :: bs => a == b && charsStartsWith as bs

/-- Plain contiguous-substring test on character lists. -/
def charsSub : List Char → List Char → Bool
  | n, [] => n.isEmpty
  | n, c :: hs => charsStartsWith n (c :: hs) || charsSub n hs

/-- Case-sensitive substring predicate on strings (the relation named by
claim C5). -/
def csSub (needle hay : String) : Bool :=
  charsSub needle.data hay.data

/-- ASCII-case-insensitive substring predicate on strings. -/
def ciSub (needle hay : String) : Bool :=
  charsSub (needle.data.map Char.toLower) (hay.data.map Char.toLower)

/-- The book filter exactly as claim C5 words it: rows where the search term
is a case-sensitive substring of title, author, or genre (3-way OR), all
rows when no term is given. -/
def listBooksClaimCS (st : Store) (search : Option String) : List BookRow :=
  match search with
  | none => st.books
  | some s =>
    st.books.filter (fun b => csSub s b.title || csSub s b.author || csSub s b.genre)

/-- The amended book filter: identical but ASCII-case-insensitive. -/
def listBooksAmendedCI (st : Store) (search : Option String) : List BookRow :=
  match search with
  | none => st.books
  | some s =>
    st.books.filter (fun b => ciSub s b.title || ciSub s b.author || ciSub s b.genre)

/-! ### Generic list lemmas -/

/-- `find?` skips a prefix on which the predicate is everywhere false. -/
theorem find?_append_of_none {α : Type} (p : α → Bool) (l₁ l₂ : List α)
    (h : ∀ x ∈ l₁, p x = false) : (l₁ ++ l₂).find? p = l₂.find? p := by
  induction l₁ with
  | nil => rfl
  | cons a l ih =>
    rw [List.cons_append,
      List.find?_cons_of_neg _ (by simp [h a (List.mem_cons_self a l)])]
    exact ih (fun x hx => h x (List.mem_cons_of_mem a hx))

/-- Looking up key `i` after a keyed in-place update (`UPDATE … WHERE id=i`)
yields the updated version of the previous lookup result. -/
theorem find?_map_upd {α : Type} (key : α → Nat) (f : α → α)
    (hf : ∀ x, key (f x) = key x) (i : Nat) (l : List α) :
    (l.map (fun x => if key x == i then f x else x)).find? (fun x => key x == i)
      = (l.find? (fun x => key x == i)).map f := by
  induction l with
  | nil => rfl
  | cons a l ih =>
    simp only [List.map_cons]
    by_cases h : (key a == i) = true
    · rw [if_pos h,
        List.find?_cons_of_pos (p := fun x => key x == i) _ (show (key (f a) == i) = true by
          rw [hf]; exact h),
        List.find?_cons_of_pos (p := fun x => key x == i) _ h, Option.map_some']
    · rw [if_neg h, List.find?_cons_of_neg (p := fun x => key x == i) _ h,
        List.find?_cons_of_neg (p := fun x => key x == i) _ h, ih]

/-- A keyed in-place update on key `i` does not disturb lookups of any other
key `j`. -/
theorem find?_map_upd_ne {α : Type} (key : α → Nat) (f : α → α)
    (hf : ∀ x, key (f x) = key x) (i j : Nat) (hij : j ≠ i) (l : List α) :
    (l.map (fun x => if key x == i then f x else x)).find? (fun x => key x == j)
      = l.find? (fun x => key x == j) := by
  induction l with
  | nil => rfl
  | cons a l ih =>
    simp only [List.map_cons]
    by_cases h : (key a == i) = true
    · have hai : key a = i := beq_iff_eq.mp h
      have hja : ¬ (key a == j) = true := by
        simp [beq_eq_false_iff_ne.mpr (show key a ≠ j by omega)]
      have hjf : ¬ (key (f a) == j) = true := by
        rw [hf]; simp [beq_eq_false_iff_ne.mpr (show key a ≠ j by omega)]
      rw [if_pos h, List.find?_cons_of_neg (p := fun x => key x == j) _ hjf,
        List.find?_cons_of_neg (p := fun x => key x == j) _ hja, ih]
    · rw [if_neg h]
      by_cases hj : (key a == j) = true
      · rw [List.find?_cons_of_pos (p := fun x => key x == j) _ hj,
          List.find?_cons_of_pos (p := fun x => key x == j) _ hj]
      · rw [List.find?_cons_of_neg (p := fun x => key x == j) _ hj,
          List.find?_cons_of_neg (p := fun x => key x == j) _ hj, ih]

/-- Decrementing then incrementing `available_count` of the row keyed by
`book_id` is the identity on a single book row. -/
theorem upd_cancel_row (book_id : Nat) (bb : BookRow) :
    ((fun b2 : BookRow => if b2.id == book_id then
        { b2 with available_count := b2.available_count + 1 } else b2) ∘
      (fun b2 : BookRow => if b2.id == book_id then
        { b2 with available_count := b2.available_count - 1 } else b2)) bb = bb := by
  simp only [Function.comp_apply]
  by_cases hid : (bb.id == book_id) = true
  · rw [if_pos hid]
    have h2 : ((({ bb with available_count := bb.available_count - 1 } : BookRow).id
        == book_id)) = true := hid
    rw [if_pos h2]
    show ({ bb with available_count := bb.available_count - 1 + 1 } : BookRow) = bb
    rw [show bb.available_count - 1 + 1 = bb.available_count by omega]
  · rw [if_neg hid, if_neg hid]

/-- Decrementing then incrementing `available_count` of the rows keyed by
`book_id` is the identity on a book table. -/
theorem map_upd_cancel (book_id : Nat) (l : List BookRow) :
    ((l.map (fun bb => if bb.id == book_id then
        { bb with available_count := bb.available_count - 1 } else bb)).map
      (fun bb => if bb.id == book_id then
        { bb with available_count := bb.available_count + 1 } else bb)) = l := by
  rw [List.map_map]
  exact (List.map_congr_left (fun x _ => upd_cancel_row book_id x)).trans (List.map_id' l)

/-! ### Concrete stores used by witnesses and counterexamples -/

/-- One user, one book with no available copy. -/
def stNoCopies : Store :=
  ⟨[⟨1, "alice", "pw", "user"⟩], [⟨1, "T", "A", "G", 0⟩], [], [], 2, 2, 1, 1⟩

/-- One open loan of book 1 by user 1 (all copies out). -/
def stReturnable : Store :=
  ⟨[⟨1, "alice", "pw", "user"⟩], [⟨1, "T", "A", "G", 0⟩], [],
    [⟨1, 1, 1, "2024-01-01", "2024-01-15", none, 0⟩], 2, 2, 1, 2⟩

/-- One user and one book with two available copies; next transaction id 5. -/
def stIssuable : Store :=
  ⟨[⟨1, "alice", "pw", "user"⟩], [⟨1, "T", "A", "G", 2⟩], [], [], 2, 2, 1, 5⟩

/-- A member with mirrored user and an open loan on book 1. -/
def stActive : Store :=
  ⟨[⟨1, "a@b", "pw", "user"⟩], [⟨1, "T", "A", "G", 0⟩],
    [⟨1, "A", "a@b", "pw", none, none⟩], [⟨1, 1, 1, "d", "e", none, 0⟩], 2, 2, 2, 2⟩

/-- An empty books table but a dangling open transaction naming book id 5. -/
def stDangling : Store :=
  ⟨[], [], [], [⟨1, 7, 5, "d", "e", none, 0⟩], 1, 1, 1, 2⟩

/-- A populated store with no transactions; ids 9 are absent everywhere. -/
def stMissing : Store :=
  ⟨[⟨1, "admin", "admin", "admin"⟩], [⟨1, "T", "A", "G", 1⟩],
    [⟨1, "A", "a@b", "pw", none, none⟩], [], 2, 2, 2, 1⟩

/-! ### Claim theorems -/

/-- C1 (code_bug evidence): on a freshly initialised database, whose `users`
table already holds the default `admin` row, `add_member` with email
`"admin"` reports success, commits the member row, and yet creates no
mirrored `role='user'` account with that username — the mirrored-user
`INSERT` hits the `UNIQUE(username)` constraint and its failure is silently
discarded, so the two-table write is not atomic as the spec requires. -/
theorem add_member_orphan :
    (add_member initFreshDatabase "Alice" "admin" "pw" none none).1 = DbResult.ok ∧
    (add_member initFreshDatabase "Alice" "admin" "pw" none none).2.members.any
      (fun m => m.email == "admin") = true ∧
    (add_member initFreshDatabase "Alice" "admin" "pw" none none).2.users.any
      (fun v => v.username == "admin" && v.role == "user") = false := by
  decide

/-- C2: with an existing user and an existing book row, `issue_book` fails
with "No copies available" and writes nothing whenever `available_count ≤ 0`,
and whenever `available_count > 0` it succeeds, appends exactly one
`returned=0` transaction, decrements that book's `available_count` by exactly
one, and leaves users, members, and every other book row unchanged. -/
theorem issue_book_spec (st : Store) (username : String) (book_id : Nat)
    (d1 d2 : String) (u : UserRow) (b : BookRow)
    (hu : get_user_by_username st username = some u)
    (hb : st.books.find? (fun x => x.id == book_id) = some b) :
    (b.available_count ≤ 0 →
      issue_book st username book_id d1 d2 = (DbResult.err "No copies available", st)) ∧
    (0 < b.available_count →
      (issue_book st username book_id d1 d2).1 = DbResult.ok ∧
      (issue_book st username book_id d1 d2).2.transactions
        = st.transactions ++ [⟨st.nextTxId, u.id, book_id, d1, d2, none, 0⟩] ∧
      (issue_book st username book_id d1 d2).2.books.find? (fun x => x.id == book_id)
        = some { b with available_count := b.available_count - 1 } ∧
      (issue_book st username book_id d1 d2).2.users = st.users ∧
      (issue_book st username book_id d1 d2).2.members = st.members ∧
      (∀ j, j ≠ book_id →
        (issue_book st username book_id d1 d2).2.books.find? (fun x => x.id == j)
          = st.books.find? (fun x => x.id == j))) := by
  constructor
  · intro hle
    simp only [issue_book, hu, hb]
    rw [if_pos hle]
  · intro hgt
    have hnle : ¬ b.available_count ≤ 0 := by omega
    have hred : issue_book st username book_id d1 d2
        = (DbResult.ok,
          { st with
            transactions := st.transactions ++
              [⟨st.nextTxId, u.id, book_id, d1, d2, none, 0⟩]
            nextTxId := st.nextTxId + 1
            books := st.books.map (fun bb =>
              if bb.id == book_id then
                { bb with available_count := bb.available_count - 1 }
              else bb) }) := by
      simp only [issue_book, hu, hb, if_neg hnle]
    rw [hred]
    refine ⟨rfl, rfl, ?_, rfl, rfl, ?_⟩
    · exact (find?_map_upd (fun x => x.id)
        (fun x => { x with available_count := x.available_count - 1 })
        (fun x => rfl) book_id st.books).trans (by rw [hb])
    · intro j hj
      exact find?_map_upd_ne (fun x => x.id)
        (fun x => { x with available_count := x.available_count - 1 })
        (fun x => rfl) book_id j hj st.books

/-- C2 witness: at a concrete store with an existing user and a book with
zero available copies, the failure branch of `issue_book_spec` applies. -/
theorem issue_book_spec_witness :
    issue_book stNoCopies "alice" 1 "2024-01-01" "2024-01-15"
      = (DbResult.err "No copies available", stNoCopies) :=
  (issue_book_spec stNoCopies "alice" 1 "2024-01-01" "2024-01-15"
    ⟨1, "alice", "pw", "user"⟩ ⟨1, "T", "A", "G", 0⟩ (by decide) (by decide)).1 (by decide)

/-- C3: `return_book` fails with "Transaction not found" on a missing id and
"Already returned" on a `returned≠0` transaction, both leaving the store
untouched; on a `returned=0` transaction it succeeds, stamps `return_date`
with today and `returned` with 1, increments the referenced book's
`available_count` by exactly one (when that book row exists), and leaves
users, members, and all other transaction and book rows unchanged. -/
theorem return_book_spec (st : Store) (tid : Nat) (today : String) :
    (st.transactions.find? (fun t => t.id == tid) = none →
      return_book st tid today = (DbResult.err "Transaction not found", st)) ∧
    (∀ tx, st.transactions.find? (fun t => t.id == tid) = some tx →
      (tx.returned ≠ 0 →
        return_book st tid today = (DbResult.err "Already returned", st)) ∧
      (tx.returned = 0 →
        (return_book st tid today).1 = DbResult.ok ∧
        (return_book st tid today).2.transactions.find? (fun t => t.id == tid)
          = some { tx with return_date := some today, returned := 1 } ∧
        (return_book st tid today).2.books.find? (fun x => x.id == tx.book_id)
          = (st.books.find? (fun x => x.id == tx.book_id)).map
              (fun bk => { bk with available_count := bk.available_count + 1 }) ∧
        (return_book st tid today).2.users = st.users ∧
        (return_book st tid today).2.members = st.members ∧
        (∀ j, j ≠ tid →
          (return_book st tid today).2.transactions.find? (fun t => t.id == j)
            = st.transactions.find? (fun t => t.id == j)) ∧
        (∀ j, j ≠ tx.book_id →
          (return_book st tid today).2.books.find? (fun x => x.id == j)
            = st.books.find? (fun x => x.id == j)))) := by
  constructor
  · intro hnone
    simp only [return_book, hnone]
  · intro tx htx
    constructor
    · intro hr
      simp only [return_book, htx, if_pos hr]
    · intro hr0
      have hnr : ¬ tx.returned ≠ 0 := by omega
      have hred : return_book st tid today
          = (DbResult.ok,
            { st with
              transactions := st.transactions.map (fun t =>
                if t.id == tid then
                  { t with return_date := some today, returned := 1 }
                else t)
              books := st.books.map (fun b =>
                if b.id == tx.book_id then
                  { b with available_count := b.available_count + 1 }
                else b) }) := by
        simp only [return_book, htx, if_neg hnr]
      rw [hred]
      refine ⟨rfl, ?_, ?_, rfl, rfl, ?_, ?_⟩
      · exact (find?_map_upd (fun t => t.id)
          (fun t => { t with return_date := some today, returned := 1 })
          (fun t => rfl) tid st.transactions).trans (by rw [htx])
      · exact find?_map_upd (fun x => x.id)
          (fun bk => { bk with available_count := bk.available_count + 1 })
          (fun x => rfl) tx.book_id st.books
      · intro j hj
        exact find?_map_upd_ne (fun t => t.id)
          (fun t => { t with return_date := some today, returned := 1 })
          (fun t => rfl) tid j hj st.transactions
      · intro j hj
        exact find?_map_upd_ne (fun x => x.id)
          (fun bk => { bk with available_count := bk.available_count + 1 })
          (fun x => rfl) tx.book_id j hj st.books

/-- C3 witness: the success branch of `return_book_spec` at a concrete open
transaction. -/
theorem return_book_spec_witness :
    (return_book stReturnable 1 "2024-02-01").1 = DbResult.ok ∧
    (return_book stReturnable 1 "2024-02-01").2.transactions.find? (fun t => t.id == 1)
      = some ⟨1, 1, 1, "2024-01-01", "2024-01-15", some "2024-02-01", 1⟩ ∧
    (return_book stReturnable 1 "2024-02-01").2.books.find? (fun x => x.id == 1)
      = (stReturnable.books.find? (fun x => x.id == 1)).map
          (fun bk => { bk with available_count := bk.available_count + 1 }) := by
  have h := ((return_book_spec stReturnable 1 "2024-02-01").2
    ⟨1, 1, 1, "2024-01-01", "2024-01-15", none, 0⟩ (by decide)).2 rfl
  exact ⟨h.1, h.2.1, h.2.2.1⟩

/-- C4: when `issue_book` succeeds and no existing transaction already bears
the id the new transaction receives, immediately returning that transaction
succeeds and restores the books table — in particular the issued book's
`available_count` — to exactly its state before the issue. -/
theorem issue_return_roundtrip (st : Store) (username : String) (book_id : Nat)
    (d1 d2 rdate : String) (st1 : Store)
    (hfresh : ∀ t ∈ st.transactions, t.id ≠ st.nextTxId)
    (hissue : issue_book st username book_id d1 d2 = (DbResult.ok, st1)) :
    (return_book st1 st.nextTxId rdate).1 = DbResult.ok ∧
    (return_book st1 st.nextTxId rdate).2.books = st.books := by
  cases hu : get_user_by_username st username with
  | none =>
    rw [show issue_book st username book_id d1 d2 = (DbResult.err "User not found", st) by
      simp only [issue_book, hu]] at hissue
    simp at hissue
  | some u =>
    cases hb : st.books.find? (fun b => b.id == book_id) with
    | none =>
      rw [show issue_book st username book_id d1 d2 = (DbResult.err "Book not found", st) by
        simp only [issue_book, hu, hb]] at hissue
      simp at hissue
    | some b =>
      by_cases hc : b.available_count ≤ 0
      · rw [show issue_book st username book_id d1 d2
            = (DbResult.err "No copies available", st) by
          simp only [issue_book, hu, hb, if_pos hc]] at hissue
        simp at hissue
      · rw [show issue_book st username book_id d1 d2
            = (DbResult.ok,
              { st with
                transactions := st.transactions ++
                  [⟨st.nextTxId, u.id, book_id, d1, d2, none, 0⟩]
                nextTxId := st.nextTxId + 1
                books := st.books.map (fun bb =>
                  if bb.id == book_id then
                    { bb with available_count := bb.available_count - 1 }
                  else bb) }) by
          simp only [issue_book, hu, hb, if_neg hc]] at hissue
        have hst1 := ((Prod.mk.injEq _ _ _ _).mp hissue).2
        subst hst1
        have hfind : List.find? (fun t => t.id == st.nextTxId)
            (st.transactions ++
              ([⟨st.nextTxId, u.id, book_id, d1, d2, none, 0⟩] : List TransactionRow))
            = some ⟨st.nextTxId, u.id, book_id, d1, d2, none, 0⟩ := by
          rw [find?_append_of_none (p := fun t : TransactionRow => t.id == st.nextTxId) _ _
            (fun t ht => beq_eq_false_iff_ne.mpr (hfresh t ht))]
          exact List.find?_cons_of_pos
            (p := fun t : TransactionRow => t.id == st.nextTxId) _ (by simp)
        simp only [return_book, hfind]
        rw [if_neg (show ¬ ((⟨st.nextTxId, u.id, book_id, d1, d2, none, 0⟩ :
          TransactionRow).returned ≠ 0) by simp)]
        exact ⟨rfl, map_upd_cancel book_id st.books⟩

/-- C4 witness: issuing then returning at a concrete store with two copies
restores the books table. -/
theorem issue_return_roundtrip_witness :
    (return_book (issue_book stIssuable "alice" 1 "2024-01-01" "2024-01-15").2
      5 "2024-02-01").1 = DbResult.ok ∧
    (return_book (issue_book stIssuable "alice" 1 "2024-01-01" "2024-01-15").2
      5 "2024-02-01").2.books = stIssuable.books :=
  issue_return_roundtrip stIssuable "alice" 1 "2024-01-01" "2024-01-15" "2024-02-01"
    (issue_book stIssuable "alice" 1 "2024-01-01" "2024-01-15").2
    (by decide) (by decide)

/-- C6: `delete_book` on a book referenced by any `returned=0` transaction,
and `delete_member` on a member whose mirrored user (the user row named by
the member's email) has any `returned=0` transaction, fail with their
"active issues" conflict results and leave every table unchanged. -/
theorem delete_guard_spec (st : Store) (bid mid : Nat) :
    ((∃ t ∈ st.transactions, t.book_id = bid ∧ t.returned = 0) →
      delete_book st bid = (DbResult.err "Cannot delete book with active issues", st)) ∧
    (∀ m u, st.members.find? (fun r => r.id == mid) = some m →
      st.users.find? (fun v => v.username == m.email) = some u →
      (∃ t ∈ st.transactions, t.user_id = u.id ∧ t.returned = 0) →
      delete_member st mid = (DbResult.err "Member has active issued books", st)) := by
  constructor
  · rintro ⟨t, ht, h1, h2⟩
    have hany : st.transactions.any (fun t => t.book_id == bid && t.returned == 0) = true :=
      List.any_eq_true.mpr ⟨t, ht, by simp [h1, h2]⟩
    simp only [delete_book, hany]
    rw [if_pos trivial]
  · rintro m u hm hu ⟨t, ht, h1, h2⟩
    have hany : st.transactions.any (fun t => t.user_id == u.id && t.returned == 0) = true :=
      List.any_eq_true.mpr ⟨t, ht, by simp [h1, h2]⟩
    simp only [delete_member, hm, hu, Option.some_bind, Option.map_some', hany]
    rw [if_pos trivial]

/-- C6 witness: both delete guards fire at a concrete store with an open
loan referencing book 1 and the mirrored user of member 1. -/
theorem delete_guard_spec_witness :
    delete_book stActive 1 = (DbResult.err "Cannot delete book with active issues", stActive) ∧
    delete_member stActive 1 = (DbResult.err "Member has active issued books", stActive) :=
  ⟨(delete_guard_spec stActive 1 1).1 ⟨⟨1, 1, 1, "d", "e", none, 0⟩, by decide, rfl, rfl⟩,
   (delete_guard_spec stActive 1 1).2 ⟨1, "A", "a@b", "pw", none, none⟩
     ⟨1, "a@b", "pw", "user"⟩ (by decide) (by decide)
     ⟨⟨1, 1, 1, "d", "e", none, 0⟩, by decide, rfl, rfl⟩⟩

/-- C9: initialising the database against a path with no existing store file
yields a users table holding exactly the single default admin row
`("admin", "admin", role "admin")`. -/
theorem init_fresh_admin :
    initFreshDatabase.users
      = [{ id := 1, username := "admin", password := "admin", role := "admin" }] := by
  decide

/-- C10 counterexample: at a store whose books table does not contain id 5
but whose transactions table holds a dangling `returned=0` row naming book 5,
`delete_book 5` returns the "active issues" conflict, not success — refuting
the claim as stated over every store state. -/
theorem delete_missing_cex :
    stDangling.books.all (fun b => !(b.id == 5)) = true ∧
    delete_book stDangling 5
      = (DbResult.err "Cannot delete book with active issues", stDangling) := by
  decide

/-- C10 as amended: for an id absent from the books table and not referenced
by any `returned=0` transaction, `delete_book` returns success and leaves the
store unchanged; for an id absent from the members table, `delete_member`
unconditionally returns success and leaves the store unchanged. -/
theorem delete_missing_spec (st : Store) (bid mid : Nat)
    (hb : ∀ b ∈ st.books, b.id ≠ bid)
    (hbt : ∀ t ∈ st.transactions, t.book_id = bid → t.returned ≠ 0)
    (hm : ∀ m ∈ st.members, m.id ≠ mid) :
    delete_book st bid = (DbResult.ok, st) ∧
    delete_member st mid = (DbResult.ok, st) := by
  constructor
  · have hany : st.transactions.any (fun t => t.book_id == bid && t.returned == 0) = false := by
      rw [List.any_eq_false]
      intro t ht
      simp only [Bool.and_eq_true, not_and]
      intro hbk
      have hb2 : t.book_id = bid := beq_iff_eq.mp hbk
      simp [beq_eq_false_iff_ne.mpr (hbt t ht hb2)]
    have hfil : st.books.filter (fun b => !(b.id == bid)) = st.books :=
      List.filter_eq_self.mpr (fun b hb2 => by
        simp [beq_eq_false_iff_ne.mpr (hb b hb2)])
    simp only [delete_book, hany, Bool.false_eq_true, if_false, hfil]
  · have hfm : st.members.find? (fun m => m.id == mid) = none :=
      List.find?_eq_none.mpr (fun m hm2 => by
        simp [beq_eq_false_iff_ne.mpr (hm m hm2)])
    have hfil : st.members.filter (fun m => !(m.id == mid)) = st.members :=
      List.filter_eq_self.mpr (fun m hm2 => by
        simp [beq_eq_false_iff_ne.mpr (hm m hm2)])
    simp only [delete_member, hfm, Option.none_bind, hfil]
    rw [if_neg (by simp)]

/-- C10 witness: deleting the absent ids 9 from a concrete populated store
succeeds on both tables and changes nothing. -/
theorem delete_missing_spec_witness :
    delete_book stMissing 9 = (DbResult.ok, stMissing) ∧
    delete_member stMissing 9 = (DbResult.ok, stMissing) :=
  delete_missing_spec stMissing 9 9 (by decide) (by decide) (by decide)

/-! ### Lemmas relating SQLite LIKE to the substring predicates (claim C5) -/

/-- The empty needle is a substring of every haystack. -/
theorem charsSub_nil (h : List Char) : charsSub [] h = true := by
  cases h with
  | nil => rfl
  | cons c hs => rfl

/-- `ciSub` with an empty needle always holds. -/
theorem ciSub_nil (hay : String) : ciSub "" hay = true :=
  charsSub_nil _

/-- The pattern `%` alone matches every text. -/
theorem likeMatch_pct (t : List Char) : likeMatch ['%'] t = true := by
  simp only [likeMatch, if_pos rfl]
  refine List.any_eq_true.mpr ⟨t.length, List.mem_range.mpr (Nat.lt_succ_self _), ?_⟩
  rw [List.drop_length]
  rfl

/-- A pattern headed by `%` matches iff its tail matches some suffix of the
text. -/
theorem likeMatch_pct_cons (ps t : List Char) :
    likeMatch ('%' :: ps) t = true ↔ ∃ n, likeMatch ps (t.drop n) = true := by
  simp only [likeMatch, if_true]
  rw [List.any_eq_true]
  constructor
  · rintro ⟨n, _, h⟩
    exact ⟨n, h⟩
  · rintro ⟨n, h⟩
    by_cases hn : n ≤ t.length
    · exact ⟨n, List.mem_range.mpr (by omega), h⟩
    · refine ⟨t.length, List.mem_range.mpr (Nat.lt_succ_self _), ?_⟩
      rw [List.drop_length]
      rw [List.drop_eq_nil_of_le (by omega)] at h
      exact h

/-- A wildcard-free pattern followed by `%` matches a text iff the folded
pattern is a prefix of the folded text. -/
theorem likeMatch_append_pct (s : List Char) :
    ∀ t, (∀ c ∈ s, c ≠ '%' ∧ c ≠ '_') →
      (likeMatch (s ++ ['%']) t = true
        ↔ charsStartsWith (s.map Char.toLower) (t.map Char.toLower) = true) := by
  induction s with
  | nil =>
    intro t _
    rw [List.nil_append, likeMatch_pct]
    simp only [List.map_nil]
    constructor
    · intro _; rfl
    · intro _; trivial
  | cons c cs ih =>
    intro t hs
    have hc := hs c (List.mem_cons_self c cs)
    have hcs : ∀ x ∈ cs, x ≠ '%' ∧ x ≠ '_' :=
      fun x hx => hs x (List.mem_cons_of_mem c hx)
    cases t with
    | nil =>
      simp only [List.cons_append, likeMatch, if_neg hc.1, List.map_cons,
        List.map_nil, charsStartsWith]
    | cons d ds =>
      simp only [List.cons_append, likeMatch, if_neg hc.1, if_neg hc.2,
        List.map_cons, charsStartsWith, Bool.and_eq_true]
      exact and_congr Iff.rfl (ih ds hcs)

/-- A needle occurs as a substring iff it is a prefix of some suffix. -/
theorem charsSub_iff_drop (n : List Char) :
    ∀ h, (charsSub n h = true ↔ ∃ k, charsStartsWith n (h.drop k) = true) := by
  intro h
  induction h with
  | nil =>
    simp only [charsSub]
    constructor
    · intro he
      refine ⟨0, ?_⟩
      cases n with
      | nil => rfl
      | cons a as => simp at he
    · rintro ⟨k, hk⟩
      cases n with
      | nil => rfl
      | cons a as =>
        rw [List.drop_nil] at hk
        simp [charsStartsWith] at hk
  | cons c hs ih =>
    simp only [charsSub, Bool.or_eq_true]
    constructor
    · rintro (hp | hsub)
      · exact ⟨0, hp⟩
      · obtain ⟨k, hk⟩ := ih.mp hsub
        refine ⟨k + 1, ?_⟩
        rw [List.drop_succ_cons]
        exact hk
    · rintro ⟨k, hk⟩
      cases k with
      | zero => exact Or.inl hk
      | succ k =>
        rw [List.drop_succ_cons] at hk
        exact Or.inr (ih.mpr ⟨k, hk⟩)

/-- For wildcard-free search terms the source's `LIKE '%s%'` test coincides
with ASCII-case-insensitive substring containment. -/
theorem sqlLike_eq_ciSub (s t : String) (hw : ∀ c ∈ s.data, c ≠ '%' ∧ c ≠ '_') :
    sqlLike ("%" ++ s ++ "%") t = ciSub s t := by
  rw [Bool.eq_iff_iff]
  have hdata : ("%" ++ s ++ "%").data = '%' :: (s.data ++ ['%']) := by
    rw [String.data_append, String.data_append]
    exact rfl
  unfold sqlLike ciSub
  rw [hdata, likeMatch_pct_cons]
  constructor
  · rintro ⟨n, hn⟩
    have hp := (likeMatch_append_pct s.data (t.data.drop n) hw).mp hn
    rw [List.map_drop] at hp
    exact (charsSub_iff_drop _ _).mpr ⟨n, hp⟩
  · intro hsub
    obtain ⟨k, hk⟩ := (charsSub_iff_drop _ _).mp hsub
    rw [← List.map_drop] at hk
    exact ⟨k, (likeMatch_append_pct s.data (t.data.drop k) hw).mpr hk⟩

/-- One book titled "Dune". -/
def stBooks : Store :=
  ⟨[], [⟨1, "Dune", "Herbert", "Sci-Fi", 3⟩], [], [], 1, 2, 1, 1⟩

/-- C5 counterexample: searching "dune" returns the book "Dune" although
"dune" is not a case-sensitive substring of any of its three columns —
SQLite's default `LIKE` folds ASCII case, so the claim's case-sensitive
filter disagrees with the code at this input. -/
theorem list_books_case_cex :
    list_books stBooks (some "dune") = [⟨1, "Dune", "Herbert", "Sci-Fi", 3⟩] ∧
    listBooksClaimCS stBooks (some "dune") = [] := by
  decide

/-- C5 as amended: for a search term free of the `LIKE` wildcards `%` and
`_`, `list_books` returns exactly the rows whose title, author, or genre
contains the term ASCII-case-insensitively (in table order), and with no
search term it returns all rows. -/
theorem list_books_spec (st : Store) (s : String)
    (hw : ∀ c ∈ s.data, c ≠ '%' ∧ c ≠ '_') :
    list_books st (some s) = listBooksAmendedCI st (some s) ∧
    list_books st none = st.books := by
  constructor
  · by_cases he : s.isEmpty = true
    · have hs : s = "" := (String.isEmpty_iff s).mp he
      subst hs
      simp only [list_books, listBooksAmendedCI, if_pos rfl]
      exact (List.filter_eq_self.mpr (fun b _ => by
        simp [ciSub_nil])).symm
    · simp only [list_books, listBooksAmendedCI, if_neg he]
      exact List.filter_congr (fun b _ => by
        rw [sqlLike_eq_ciSub s b.title hw, sqlLike_eq_ciSub s b.author hw,
          sqlLike_eq_ciSub s b.genre hw])
  · rfl

/-- C5 witness: the amended equivalence evaluated at a concrete store and
the wildcard-free search term "her". -/
theorem list_books_spec_witness :
    list_books stBooks (some "her") = listBooksAmendedCI stBooks (some "her") ∧
    list_books stBooks none = stBooks.books :=
  list_books_spec stBooks "her" (by decide)

/-! ### Order lemmas for `list_transactions` (claim C7) -/

/-- The BINARY collation is total. -/
theorem charsLe_total (a : List Char) : ∀ b, charsLe a b = true ∨ charsLe b a = true := by
  induction a with
  | nil => intro b; exact Or.inl rfl
  | cons x xs ih =>
    intro b
    cases b with
    | nil => exact Or.inr rfl
    | cons y ys =>
      simp only [charsLe]
      by_cases h1 : x.toNat < y.toNat
      · left; rw [if_pos h1]
      · by_cases h2 : y.toNat < x.toNat
        · right; rw [if_pos h2]
        · rcases ih ys with h | h
          · left; rw [if_neg h1, if_neg h2]; exact h
          · right; rw [if_neg h2, if_neg h1]; exact h

/-- The BINARY collation is transitive. -/
theorem charsLe_trans : ∀ a b c : List Char,
    charsLe a b = true → charsLe b c = true → charsLe a c = true := by
  intro a
  induction a with
  | nil => intro b c _ _; rfl
  | cons x xs ih =>
    intro b c hab hbc
    cases b with
    | nil => simp [charsLe] at hab
    | cons y ys =>
      cases c with
      | nil => simp [charsLe] at hbc
      | cons z zs =>
        simp only [charsLe] at hab hbc ⊢
        by_cases hxz : x.toNat < z.toNat
        · rw [if_pos hxz]
        · by_cases hxy : x.toNat < y.toNat
          · by_cases hyz : y.toNat < z.toNat
            · omega
            · by_cases hzy : z.toNat < y.toNat
              · rw [if_neg hyz, if_pos hzy] at hbc
                exact absurd hbc (by simp)
              · omega
          · by_cases hyx : y.toNat < x.toNat
            · rw [if_neg hxy, if_pos hyx] at hab
              exact absurd hab (by simp)
            · by_cases hyz : y.toNat < z.toNat
              · omega
              · by_cases hzy : z.toNat < y.toNat
                · rw [if_neg hyz, if_pos hzy] at hbc
                  exact absurd hbc (by simp)
                · by_cases hzx : z.toNat < x.toNat
                  · omega
                  · rw [if_neg hxz, if_neg hzx]
                    rw [if_neg hxy, if_neg hyx] at hab
                    rw [if_neg hyz, if_neg hzy] at hbc
                    exact ih ys zs hab hbc

/-- Totality of `strLe`. -/
theorem strLe_total (a b : String) : strLe a b = true ∨ strLe b a = true :=
  charsLe_total a.data b.data

/-- Transitivity of `strLe`. -/
theorem strLe_trans (a b c : String) (h1 : strLe a b = true) (h2 : strLe b c = true) :
    strLe a c = true :=
  charsLe_trans a.data b.data c.data h1 h2

/-- Inserting yields a permutation of consing. -/
theorem insertByDateDesc_perm (v : TransactionView) (l : List TransactionView) :
    List.Perm (insertByDateDesc v l) (v :: l) := by
  induction l with
  | nil => exact List.Perm.refl _
  | cons w ws ih =>
    simp only [insertByDateDesc]
    by_cases h : strLe w.issue_date v.issue_date = true
    · rw [if_pos h]
    · rw [if_neg h]
      exact (List.Perm.cons w ih).trans (List.Perm.swap v w ws)

/-- The embedded `ORDER BY` sort permutes its input. -/
theorem sortByDateDesc_perm (l : List TransactionView) :
    List.Perm (sortByDateDesc l) l := by
  induction l with
  | nil => exact List.Perm.refl _
  | cons v vs ih =>
    exact (insertByDateDesc_perm v (sortByDateDesc vs)).trans (List.Perm.cons v ih)

/-- Inserting into a descending-sorted list keeps it descending-sorted. -/
theorem insertByDateDesc_sorted (v : TransactionView) (l : List TransactionView)
    (hl : l.Pairwise (fun a b => strLe b.issue_date a.issue_date = true)) :
    (insertByDateDesc v l).Pairwise (fun a b => strLe b.issue_date a.issue_date = true) := by
  induction l with
  | nil => exact List.Pairwise.cons (by simp) List.Pairwise.nil
  | cons w ws ih =>
    simp only [insertByDateDesc]
    rcases List.pairwise_cons.mp hl with ⟨hw, hws⟩
    by_cases h : strLe w.issue_date v.issue_date = true
    · rw [if_pos h]
      refine List.pairwise_cons.mpr ⟨?_, hl⟩
      intro x hx
      rcases List.mem_cons.mp hx with rfl | hx2
      · exact h
      · exact strLe_trans _ _ _ (hw x hx2) h
    · rw [if_neg h]
      refine List.pairwise_cons.mpr ⟨?_, ih hws⟩
      intro x hx
      have hx2 := (insertByDateDesc_perm v ws).mem_iff.mp hx
      rcases List.mem_cons.mp hx2 with rfl | hx3
      · rcases strLe_total w.issue_date x.issue_date with h1 | h1
        · exact absurd h1 h
        · exact h1
      · exact hw x hx3

/-- The embedded `ORDER BY` sort produces a descending-sorted list. -/
theorem sortByDateDesc_sorted (l : List TransactionView) :
    (sortByDateDesc l).Pairwise (fun a b => strLe b.issue_date a.issue_date = true) := by
  induction l with
  | nil => exact List.Pairwise.nil
  | cons v vs ih => exact insertByDateDesc_sorted v _ ih

/-- One joined loan row for user "alice". -/
def stLoans : Store :=
  ⟨[⟨1, "alice", "pw", "user"⟩], [⟨1, "T", "A", "G", 2⟩], [],
    [⟨1, 1, 1, "2024-01-01", "2024-01-15", none, 0⟩], 2, 2, 1, 2⟩

/-- C7 counterexample: with `forUsername = ""` the source treats the filter
as absent (Python truthiness) and returns every joined row, although no
joined row has username `""` — so the claim's "for every username string X"
fails at `X = ""`. -/
theorem list_transactions_cex :
    list_transactions stLoans (some "")
      = [⟨1, 1, 1, "2024-01-01", "2024-01-15", none, 0, "alice", "T"⟩] ∧
    (joinAll stLoans).filter (fun v => v.username == "") = [] := by
  decide

/-- C7 as amended: for every non-empty username X, `list_transactions`
returns exactly the joined rows (inner join with users and books) whose
username equals X, sorted by `issue_date` descending; with no filter (or the
empty string, which the source treats as no filter) it returns all joined
rows in that order. -/
theorem list_transactions_spec (st : Store) (x : String) (hx : x ≠ "") :
    List.Perm (list_transactions st (some x))
      ((joinAll st).filter (fun v => v.username == x)) ∧
    (list_transactions st (some x)).Pairwise
      (fun a b => strLe b.issue_date a.issue_date = true) ∧
    List.Perm (list_transactions st none) (joinAll st) ∧
    (list_transactions st none).Pairwise
      (fun a b => strLe b.issue_date a.issue_date = true) := by
  have hne : ¬ x.isEmpty = true := by
    intro hcontra
    exact hx ((String.isEmpty_iff x).mp hcontra)
  refine ⟨?_, ?_, ?_, ?_⟩
  · simp only [list_transactions, if_neg hne]
    exact sortByDateDesc_perm _
  · simp only [list_transactions, if_neg hne]
    exact sortByDateDesc_sorted _
  · simp only [list_transactions]
    exact sortByDateDesc_perm _
  · simp only [list_transactions]
    exact sortByDateDesc_sorted _

/-- C7 witness: the amended statement evaluated at a concrete store and the
non-empty username "alice". -/
theorem list_transactions_spec_witness :
    List.Perm (list_transactions stLoans (some "alice"))
      ((joinAll stLoans).filter (fun v => v.username == "alice")) ∧
    (list_transactions stLoans (some "alice")).Pairwise
      (fun a b => strLe b.issue_date a.issue_date = true) ∧
    List.Perm (list_transactions stLoans none) (joinAll stLoans) ∧
    (list_transactions stLoans none).Pairwise
      (fun a b => strLe b.issue_date a.issue_date = true) :=
  list_transactions_spec stLoans "alice" (by decide)

/-! ### Mirrored-user rename lemmas (claim C8) -/

/-- After the `UPDATE users SET username=new, password=pw WHERE username=old`
step, looking up `(new, pw)` finds the renamed copy of the first row that
had the old username, provided no row already carried the new username. -/
theorem find?_rename_new (old new pw : String) (hne : new ≠ old) (u : UserRow) :
    ∀ users : List UserRow,
      users.find? (fun v => v.username == old) = some u →
      (∀ v ∈ users, ¬ (v.username == new) = true) →
      (users.map (fun v => if v.username == old then
          { v with username := new, password := pw } else v)).find?
        (fun v => v.username == new && v.password == pw)
        = some { u with username := new, password := pw } := by
  intro users
  induction users with
  | nil => intro h _; simp at h
  | cons a l ih =>
    intro hfind hnew
    by_cases ha : (a.username == old) = true
    · rw [List.find?_cons_of_pos (p := fun v : UserRow => v.username == old) _ ha] at hfind
      have hua : a = u := Option.some_inj.mp hfind
      subst hua
      simp only [List.map_cons, if_pos ha]
      exact List.find?_cons_of_pos
        (p := fun v : UserRow => v.username == new && v.password == pw) _ (by simp)
    · rw [List.find?_cons_of_neg (p := fun v : UserRow => v.username == old) _ ha] at hfind
      simp only [List.map_cons, if_neg ha]
      have hpa : ¬ ((a.username == new && a.password == pw) = true) := by
        intro hcontra
        rw [Bool.and_eq_true] at hcontra
        exact hnew a (List.mem_cons_self a l) hcontra.1
      rw [List.find?_cons_of_neg
        (p := fun v : UserRow => v.username == new && v.password == pw) _ hpa]
      exact ih hfind (fun v hv => hnew v (List.mem_cons_of_mem a hv))

/-- After the rename, no row answers to the old username any more (with any
password): -/
theorem find?_rename_old (old new pw : String) (hne : new ≠ old) :
    ∀ users : List UserRow,
      (users.map (fun v => if v.username == old then
          { v with username := new, password := pw } else v)).find?
        (fun v => v.username == old && v.password == pw) = none := by
  intro users
  induction users with
  | nil => rfl
  | cons a l ih =>
    simp only [List.map_cons]
    by_cases ha : (a.username == old) = true
    · rw [if_pos ha]
      have hcond : ¬ ((({ a with username := new, password := pw } : UserRow).username == old
          && ({ a with username := new, password := pw } : UserRow).password == pw) = true) := by
        simp [beq_eq_false_iff_ne.mpr hne]
      rw [List.find?_cons_of_neg
        (p := fun v : UserRow => v.username == old && v.password == pw) _ hcond]
      exact ih
    · rw [if_neg ha]
      have hcond : ¬ ((a.username == old && a.password == pw) = true) := by
        intro hcontra
        rw [Bool.and_eq_true] at hcontra
        exact ha hcontra.1
      rw [List.find?_cons_of_neg
        (p := fun v : UserRow => v.username == old && v.password == pw) _ hcond]
      exact ih

/-- A member with the empty email and its mirrored user. -/
def stEmptyEmail : Store :=
  ⟨[⟨1, "", "pw", "user"⟩], [], [⟨1, "A", "", "pw", none, none⟩], [], 2, 1, 2, 1⟩

/-- C8 counterexample: a member whose email is the empty string has a
mirrored user, yet a successful `update_member` to a fresh email does not
rename that user (Python's `if old_email and …` treats `""` as falsy), so
authenticating with the new email fails — refuting the claim as stated for
every member. -/
theorem update_member_email_sync_cex :
    stEmptyEmail.users.any (fun v => v.username == "") = true ∧
    (update_member stEmptyEmail 1 "A" "new@x" "pw" none none).1 = DbResult.ok ∧
    authenticate (update_member stEmptyEmail 1 "A" "new@x" "pw" none none).2
      "new@x" "pw" = none := by
  decide

/-- C8 as amended: for a member whose current email is non-empty, with its
mirrored user (the first user row named by that email), a successful
`update_member` to a different email and password `pw` renames the mirrored
user, so authenticating with the new email and `pw` returns exactly that
updated row while the old email no longer authenticates. -/
theorem update_member_email_sync (st : Store) (mid : Nat)
    (name newEmail pw : String) (mt ex : Option String)
    (m : MemberRow) (u : UserRow) (st' : Store)
    (hm : st.members.find? (fun r => r.id == mid) = some m)
    (hold : m.email ≠ "")
    (hdiff : newEmail ≠ m.email)
    (hu : st.users.find? (fun v => v.username == m.email) = some u)
    (hok : update_member st mid name newEmail pw mt ex = (DbResult.ok, st')) :
    authenticate st' newEmail pw
      = some { u with username := newEmail, password := pw } ∧
    authenticate st' m.email pw = none := by
  simp only [update_member, hm, Option.map_some'] at hok
  by_cases hviol : memberUpdateViolation st mid newEmail mt = true
  · rw [if_pos hviol] at hok
    exact absurd hok (by simp)
  · rw [if_neg hviol, if_pos ⟨hold, fun hc => hdiff hc.symm⟩] at hok
    by_cases hcrash : ((st.users.any (fun v => v.username == m.email)) &&
        (st.users.any (fun v => v.username == newEmail))) = true
    · rw [if_pos hcrash] at hok
      exact absurd hok (by simp)
    · rw [if_neg hcrash] at hok
      have hst := ((Prod.mk.injEq _ _ _ _).mp hok).2
      subst hst
      have hnew : ∀ v ∈ st.users, ¬ (v.username == newEmail) = true := by
        intro v hv hcontra
        apply hcrash
        rw [Bool.and_eq_true]
        exact ⟨List.any_eq_true.mpr ⟨u, List.mem_of_find?_eq_some hu,
            List.find?_some (p := fun v2 : UserRow => v2.username == m.email) hu⟩,
          List.any_eq_true.mpr ⟨v, hv, hcontra⟩⟩
      exact ⟨find?_rename_new m.email newEmail pw hdiff u st.users hu hnew,
        find?_rename_old m.email newEmail pw hdiff st.users⟩

/-- A member with email old@x and its mirrored user. -/
def stRename : Store :=
  ⟨[⟨1, "old@x", "pw", "user"⟩], [], [⟨1, "A", "old@x", "pw", none, none⟩], [], 2, 1, 2, 1⟩

/-- C8 witness: the amended statement at a concrete store, renaming old@x to
new@x with password npw. -/
theorem update_member_email_sync_witness :
    authenticate (update_member stRename 1 "A" "new@x" "npw" none none).2
      "new@x" "npw" = some ⟨1, "new@x", "npw", "user"⟩ ∧
    authenticate (update_member stRename 1 "A" "new@x" "npw" none none).2
      "old@x" "npw" = none :=
  update_member_email_sync stRename 1 "A" "new@x" "npw" none none
    ⟨1, "A", "old@x", "pw", none, none⟩ ⟨1, "old@x", "pw", "user"⟩
    (update_member stRename 1 "A" "new@x" "npw" none none).2
    (by decide) (by decide) (by decide) (by decide) (by decide)

end Lib6
